import Mathlib

/-!
Verification development for the parsesm source-map recovery tool
(src/main.rs).  The Rust program is shallowly embedded: its pure string
manipulation is translated function by function, its network and HTML
parsing collaborators are passed in as explicit oracles, and the
filesystem is an association list from paths to file contents.  A Rust
panic is modelled by the `panicked` constructor of `RunResult`, which
propagates and aborts the remainder of a run, exactly as an unwinding
panic kills the single-threaded pipeline.
-/

/-! ### Rust string primitives used by main.rs -/

/-- Model of Rust `str::replace(pat, repl)`: every non-overlapping
occurrence of `pat` is replaced by `repl`, scanning left to right and
continuing after each inserted replacement.  The structural fuel starts
at the length of the scanned list; every step consumes at least one
character, so the fuel never runs out on the wrapper call below. -/
def replaceGo (pat repl : List Char) : Nat → List Char → List Char
  | 0, s => s
  | _ + 1, [] => []
  | fuel + 1, c :: rest =>
    if pat ≠ [] ∧ pat.isPrefixOf (c :: rest) then
      repl ++ replaceGo pat repl fuel ((c :: rest).drop pat.length)
    else
      c :: replaceGo pat repl fuel rest

/-- Rust `s.replace(pat, repl)` on strings (`pat` nonempty in all uses). -/
def rustReplace (s pat repl : String) : String :=
  ⟨replaceGo pat.data repl.data s.data.length s.data⟩

/-- Model of Rust `str::trim_start_matches(pat)`: the prefix `pat` is
removed repeatedly, as long as it keeps matching.  Fuel as in
`replaceGo`. -/
def trimGo (pat : List Char) : Nat → List Char → List Char
  | 0, s => s
  | fuel + 1, s =>
    if pat ≠ [] ∧ pat.isPrefixOf s then trimGo pat fuel (s.drop pat.length) else s

/-- Rust `s.trim_start_matches(pat)` on strings. -/
def trim_start_matches (s pat : String) : String :=
  ⟨trimGo pat.data s.data.length s.data⟩

/-- Rust `str::starts_with(pat)`. -/
def rustStartsWith (s pat : String) : Bool :=
  pat.data.isPrefixOf s.data

/-! ### Model of Rust `std::path::Path` (Unix, no prefixes)

`write_contents` calls `Path::parent` and `Path::file_name` on the
sanitized logical path.  Rust parses a Unix path into components:
repeated separators are dropped, `.` components are normalized away
except a leading one, and `parent`/`file_name` inspect the final
component. -/

/-- A parsed Rust path component. -/
inductive RComp
  | rootDir
  | curDir
  | parentDir
  | normal (n : List Char)
deriving DecidableEq

/-- Split a character list at its last `/`, returning the part before the
separator and the part after it; `none` when there is no separator. -/
def splitLastSep : List Char → Option (List Char × List Char)
  | [] => none
  | c :: rest =>
    match splitLastSep rest with
    | some (b, a) => some (c :: b, a)
    | none => if c = '/' then some ([], rest) else none

/-- Rust `parse_single_component` for a body slice: empty slices and `.`
are normalized away, `..` is a parent component, anything else is a
normal component. -/
def parseSingle (comp : List Char) : Option RComp :=
  if comp = [] then none
  else if comp = ['.'] then none
  else if comp = ['.', '.'] then some .parentDir
  else some (.normal comp)

/-- Strip the last raw component (and its separator) from the body of a
path, returning the shorter body and the parse of the stripped slice. -/
def backStep (body : List Char) : List Char × Option RComp :=
  match splitLastSep body with
  | none => ([], parseSingle body)
  | some (b, a) => (b, parseSingle a)

/-- Does the path have a root, i.e. start with `/`? -/
def rustHasRoot (s : List Char) : Bool :=
  match s with
  | '/' :: _ => true
  | _ => false

/-- Rust `include_cur_dir`: the path starts with a lone `.` component. -/
def rustIncCurDir (s : List Char) : Bool :=
  match s with
  | ['.'] => true
  | '.' :: '/' :: _ => true
  | _ => false

/-- The body of the path: everything after the root `/` or leading `.`. -/
def pathBody (s : List Char) : List Char :=
  if rustHasRoot s || rustIncCurDir s then s.drop 1 else s

/-- The front of the path: the root `/` or leading `.`, when present. -/
def pathFront (s : List Char) : List Char :=
  if rustHasRoot s || rustIncCurDir s then s.take 1 else []

/-- The last component of the path, Rust `Components::next_back` iterated
past normalized-away slices, together with the body remaining before it.
When the body is exhausted the front state yields the leading `.` or `/`
component.  Fuel as in `replaceGo`. -/
def lastCompGo (root incCur : Bool) : Nat → List Char → Option (RComp × List Char)
  | _, [] => if incCur then some (.curDir, []) else if root then some (.rootDir, []) else none
  | 0, _ :: _ => none
  | fuel + 1, c :: rest =>
    let (b, pc) := backStep (c :: rest)
    match pc with
    | some comp => some (comp, b)
    | none => lastCompGo root incCur fuel b

/-- The last parsed component of a path and the body before it. -/
def lastComp (s : List Char) : Option (RComp × List Char) :=
  lastCompGo (rustHasRoot s) (rustIncCurDir s) (pathBody s).length (pathBody s)

/-- Rust `Components::trim_right` used by `Components::as_path`: trailing
slices that parse to no component are stripped from the body. -/
def trimRightGo : Nat → List Char → List Char
  | 0, body => body
  | fuel + 1, body =>
    match body with
    | [] => []
    | c :: rest =>
      let (b, pc) := backStep (c :: rest)
      if pc.isSome then c :: rest else trimRightGo fuel b

/-- Rust `Path::file_name`: the final component when it is a normal one. -/
def file_name (s : List Char) : Option (List Char) :=
  match lastComp s with
  | some (.normal n, _) => some n
  | _ => none

/-- Rust `Path::parent`: the path without its final component; `none` for
the empty path and for a path that terminates in the root. -/
def parent (s : List Char) : Option (List Char) :=
  match lastComp s with
  | none => none
  | some (.rootDir, _) => none
  | some (.curDir, _) => some []
  | some (.parentDir, b) => some (pathFront s ++ trimRightGo b.length b)
  | some (.normal _, b) => some (pathFront s ++ trimRightGo b.length b)

/-! ### The Output Writer (`write_contents`, src/main.rs lines 25-64)

The filesystem is an association list of (path, contents).  The target
file is opened with `create(true).write(true).append(true)`, so a write
appends to whatever the path already holds. -/

/-- The host sanitization performed at the start of `write_contents`:
`host.trim_start_matches("http://").trim_start_matches("https://")`. -/
def sanitizeHost (host : String) : String :=
  trim_start_matches (trim_start_matches host "http://") "https://"

/-- The logical-path sanitization performed by `write_contents`:
`path.trim_start_matches("webpack:///").trim_start_matches("./")`. -/
def sanitizePath (path : String) : String :=
  trim_start_matches (trim_start_matches path "webpack:///") "./"

/-- Outcome of a run fragment: a value, or a Rust panic that unwinds and
aborts everything after it. -/
inductive RunResult (α : Type)
  | ok (a : α)
  | panicked (msg : String)
deriving DecidableEq

/-- The filesystem under `./out`, as (path, contents) pairs. -/
abbrev Fs := List (String × String)

/-- Open with create-or-append semantics and write `c` at path `p`:
an existing file keeps its contents and `c` is appended, a missing file
is created holding `c`. -/
def appendFs : Fs → String → String → Fs
  | [], p, c => [(p, c)]
  | (q, d) :: rest, p, c =>
    if q = p then (q, d ++ c) :: rest else (q, d) :: appendFs rest p c

/-- Contents of the file at path `p`, when it exists. -/
def readFs : Fs → String → Option String
  | [], _ => none
  | (q, d) :: rest, p => if q = p then some d else readFs rest p

/-- The filesystem path `write_contents` opens for (host, path): the
sanitized host and path are combined as
`format!("./out/{host}/{module}")` plus `"/{file_name}"`, with
`Path::parent` as the module; when no file name can be extracted the
`expect("failed to get file name")` panics. -/
def writeTarget (host path : String) : RunResult String :=
  let h := sanitizeHost host
  let t := sanitizePath path
  let outDir :=
    match parent t.data with
    | some m => "./out/" ++ h ++ "/" ++ String.mk m
    | none => "./out/" ++ h
  match file_name t.data with
  | none => .panicked "failed to get file name"
  | some f => .ok (outDir ++ "/" ++ String.mk f)

/-- `write_contents(host, path, contents)` acting on the filesystem. -/
def write_contents (fs : Fs) (host path contents : String) : RunResult Fs :=
  match writeTarget host path with
  | .panicked m => .panicked m
  | .ok p => .ok (appendFs fs p contents)

/-! ### The Script Discoverer (`find_scripts`, src/main.rs lines 169-188)

`scraper` is an external collaborator; the parsed document is modelled
as the list of its `script` elements in document order, each carrying
its optional `src` attribute. -/

/-- A `script` element as seen through `scraper`: its `src` attribute. -/
structure ScriptTag where
  src : Option String
deriving DecidableEq

/-- The loop body of `find_scripts`: a `src` beginning with `/` pushes
`format!("{host}{}", src.replace(".js", ".js.map"))`. -/
def discoverStep (host : String) (res : List String) (e : ScriptTag) : List String :=
  match e.src with
  | some src =>
    if rustStartsWith src "/" then
      res ++ [host ++ rustReplace src ".js" ".js.map"]
    else res
  | none => res

/-- `ParsesmClient::find_scripts` over the scripts of the parsed body. -/
def find_scripts (host : String) (tags : List ScriptTag) : List String :=
  tags.foldl (discoverStep host) []

/-! ### The Source-Map Decoder (`load_from_reader`, src/main.rs lines 9-23)

The `sourcemap` crate is an external collaborator.  A decoded map is
`Regular`, `Index`, or another variant (`Hermes`); a flat map exposes
parallel lists of source paths and optional inlined contents. -/

/-- Errors of the external decoder; `load_from_reader` only ever
produces `IncompatibleSourceMap`, the Unsupported error. -/
inductive SMErr
  | IncompatibleSourceMap
  | otherError
deriving DecidableEq

/-- A flat source map: parallel lists of sources and optional inlined
contents, as exposed by `sources()` and `source_contents()`. -/
structure SourceMap where
  sources : List String
  sourceContents : List (Option String)
deriving DecidableEq

/-- An indexed source map: sections, each wrapping a flat map. -/
structure SourceMapIndex where
  sections : List SourceMap
deriving DecidableEq

/-- The variants of the external `DecodedMap`. -/
inductive DecodedMap
  | Regular (sm : SourceMap)
  | Index (idx : SourceMapIndex)
  | Hermes (sm : SourceMap)
deriving DecidableEq

/-- Modelled from the spec: the external `flatten_and_rewrite` with
`load_local_source_contents: true` flattens the sections of an indexed
map into one regular map, concatenating the sections in order and
preserving each section's inlined source contents. -/
def flatten_and_rewrite (idx : SourceMapIndex) : Except SMErr SourceMap :=
  .ok ⟨(idx.sections.map SourceMap.sources).flatten,
       (idx.sections.map SourceMap.sourceContents).flatten⟩

/-- `load_from_reader`, applied to the outcome of the external
`decode(&mut rdr)` call on the byte stream. -/
def load_from_reader (decoded : Except SMErr DecodedMap) : Except SMErr SourceMap :=
  match decoded with
  | .ok (.Regular sm) => .ok sm
  | .ok (.Index idx) => flatten_and_rewrite idx
  | .ok (.Hermes _) => .error .IncompatibleSourceMap
  | .error _ => .error .IncompatibleSourceMap

/-! ### The Pipeline Controller (`extract_map`, `fetch_map_files`, `main`)

The HTTP transport, the HTML parser and the byte-level decoder are
oracles supplied through `Env`; given fixed oracles the embedded
pipeline is a function. -/

/-- A `reqwest` response: its status and the outcome of `text()`.
Reading the body can fail with a transport error. -/
structure HttpResponse where
  status : Nat
  text : Except Unit String

/-- `StatusCode::is_success`: 2xx. -/
def isSuccess (status : Nat) : Bool :=
  200 ≤ status && status < 300

/-- The external collaborators of one run: the HTTP transport, the HTML
parser (document-ordered `script` elements of a body), and the byte
decoder of the sourcemap crate. -/
structure Env where
  net : String → Except Unit HttpResponse
  parseHtml : String → List ScriptTag
  decode : String → Except SMErr DecodedMap

/-- The loop of `fetch_map_files`: send errors skip the resource,
non-2xx responses are dropped, and `text()` failures hit
`expect("failed to get body")`, a panic. -/
def fetchMapGo (net : String → Except Unit HttpResponse) :
    List String → List (String × String) → RunResult (List (String × String))
  | [], acc => .ok acc
  | s :: rest, acc =>
    match net s with
    | .error _ => fetchMapGo net rest acc
    | .ok r =>
      if isSuccess r.status then
        match r.text with
        | .error _ => .panicked "failed to get body"
        | .ok body => fetchMapGo net rest (acc ++ [(s, body)])
      else fetchMapGo net rest acc

/-- `ParsesmClient::fetch_map_files`. -/
def fetch_map_files (net : String → Except Unit HttpResponse)
    (scripts : List String) : RunResult (List (String × String)) :=
  fetchMapGo net scripts []

/-- The per-map write list of `extract_map`: zip `sources()` with
`source_contents()`, keep the pairs whose contents `is_some`, and
unwrap. -/
def mapWrites (sm : SourceMap) : List (String × String) :=
  ((sm.sources.zip sm.sourceContents).filterMap
    (fun s => if s.2.isSome then some s else none)).map
    (fun s => (s.1, s.2.getD ""))

/-- The inner `for_each`: write every pair in order; a panic inside
`write_contents` unwinds past the `if let Err` and aborts the rest. -/
def writeAll (host : String) : List (String × String) → Fs → RunResult Fs
  | [], fs => .ok fs
  | (p, c) :: rest, fs =>
    match write_contents fs host p c with
    | .panicked m => .panicked m
    | .ok fs2 => writeAll host rest fs2

/-- The outer `for_each` over the decoded maps. -/
def writeMaps (host : String) : List SourceMap → Fs → RunResult Fs
  | [], fs => .ok fs
  | sm :: rest, fs =>
    match writeAll host (mapWrites sm) fs with
    | .panicked m => .panicked m
    | .ok fs2 => writeMaps host rest fs2

/-- `ParsesmClient::extract_map`: fetch the origin, discover scripts,
fetch the maps, decode each (dropping failures), and write every
(source, contents) pair with present contents. -/
def extract_map (env : Env) (host : String) (fs : Fs) : RunResult Fs :=
  match env.net host with
  | .error _ => .ok fs
  | .ok r =>
    if isSuccess r.status then
      match r.text with
      | .error _ => .panicked "failed to get body"
      | .ok body =>
        let scripts := find_scripts host (env.parseHtml body)
        match fetch_map_files env.net scripts with
        | .panicked m => .panicked m
        | .ok jsMaps =>
          if jsMaps.length = 0 then .ok fs
          else
            writeMaps host
              (jsMaps.filterMap
                (fun m => (load_from_reader (env.decode m.2)).toOption)) fs
    else .ok fs

/-- `main`: `args[1]` on the collected argument vector panics with an
out-of-bounds index when fewer than two arguments are present; otherwise
the pipeline runs against a clean output tree. -/
def rustMain (env : Env) (args : List String) : RunResult Fs :=
  match args[1]? with
  | none => .panicked "index out of bounds"
  | some url => extract_map env url []

/-! ### Spec-side definitions and concrete oracles -/

/-- Equality of `Except` outcomes is decidable componentwise; used to
evaluate the embedded pipeline on concrete inputs. -/
instance {ε α : Type} [DecidableEq ε] [DecidableEq α] : DecidableEq (Except ε α) := fun a b =>
  match a, b with
  | .ok x, .ok y =>
    if h : x = y then .isTrue (by rw [h]) else .isFalse (fun hh => h (Except.ok.inj hh))
  | .error x, .error y =>
    if h : x = y then .isTrue (by rw [h]) else .isFalse (fun hh => h (Except.error.inj hh))
  | .ok _, .error _ => .isFalse (fun hh => Except.noConfusion hh)
  | .error _, .ok _ => .isFalse (fun hh => Except.noConfusion hh)

/-- Equality of responses is decidable. -/
instance : DecidableEq HttpResponse := fun a b =>
  match a, b with
  | ⟨s1, t1⟩, ⟨s2, t2⟩ =>
    if h : s1 = s2 ∧ t1 = t2 then
      .isTrue (by rw [h.1, h.2])
    else
      .isFalse (fun hh => h (by cases hh; exact ⟨rfl, rfl⟩))

/-- The discoverer as the spec describes it, written as a filter over the
document-ordered script elements: a present `src` beginning with `/` is
emitted as the origin concatenated with the `.js` to `.js.map`
replacement, anything else contributes nothing. -/
def specDiscover (host : String) (tags : List ScriptTag) : List String :=
  tags.filterMap (fun e =>
    match e.src with
    | some src =>
      if rustStartsWith src "/" then some (host ++ rustReplace src ".js" ".js.map")
      else none
    | none => none)

/-- `k` copies of `pat` concatenated; witnesses how many leading copies a
trim removed. -/
def repList (pat : List Char) : Nat → List Char
  | 0 => []
  | k + 1 => pat ++ repList pat k

/-- POSIX path resolution treats a run of `/` separators as a single
one; collapsing the runs gives the filesystem location that a textual
path denotes. -/
def collapseSlashes : List Char → List Char
  | [] => []
  | [c] => [c]
  | c :: d :: rest =>
    if c = '/' ∧ d = '/' then collapseSlashes (d :: rest)
    else c :: collapseSlashes (d :: rest)

/-- A concrete transport for evaluating the fetch loop: the first map URL
answers 2xx but its body read fails, the second answers 2xx with body
`MAPB`, everything else is a connect error. -/
def c8net : String → Except Unit HttpResponse := fun s =>
  match s with
  | "https://h/a.js.map" => .ok ⟨200, .error ()⟩
  | "https://h/b.js.map" => .ok ⟨200, .ok "MAPB"⟩
  | _ => .error ()

/-- A concrete environment whose origin fetch fails with a connect
error. -/
def envW : Env :=
  ⟨fun _ => .error (), fun _ => [], fun _ => .error .otherError⟩

/-! ### Helper lemmas -/

/-- Strings with the same character data are equal. -/
theorem strEq_of_data (a b : String) (h : a.data = b.data) : a = b := by
  cases a; cases b; cases h; rfl

/-- The data of an append is the append of the data. -/
theorem strData_append (a b : String) : (a ++ b).data = a.data ++ b.data := by
  cases a; cases b; rfl

/-- The guard-then-unwrap pipeline of `extract_map` equals filtering by
presence of the optional contents. -/
theorem filterMap_guard_eq (l : List (String × Option String)) :
    (l.filterMap (fun s => if s.2.isSome then some s else none)).map
      (fun s => (s.1, s.2.getD "")) =
    l.filterMap (fun pc => pc.2.map (fun c => (pc.1, c))) := by
  induction l with
  | nil => rfl
  | cons pc rest ih =>
    obtain ⟨p, oc⟩ := pc
    cases oc with
    | none => simpa [List.filterMap_cons] using ih
    | some c => simpa [List.filterMap_cons] using ih

/-- The push loop of `find_scripts` accumulates exactly the filtered
emissions, in document order. -/
theorem discover_foldl (host : String) (tags : List ScriptTag) :
    ∀ acc, tags.foldl (discoverStep host) acc = acc ++ specDiscover host tags := by
  induction tags with
  | nil => intro acc; simp [specDiscover]
  | cons e rest ih =>
    intro acc
    obtain ⟨src?⟩ := e
    cases src? with
    | none => simp [discoverStep, specDiscover, List.filterMap_cons, ih]
    | some src =>
      by_cases hs : rustStartsWith src "/" = true
      · simp [discoverStep, specDiscover, List.filterMap_cons, hs, ih]
      · simp only [Bool.not_eq_true] at hs
        simp [discoverStep, specDiscover, List.filterMap_cons, hs, ih]

/-- Appending to a file leaves it holding its old contents (empty when
the file did not exist) followed by the written contents. -/
theorem appendFs_read (fs : Fs) (p c : String) :
    readFs (appendFs fs p c) p = some ((readFs fs p).getD "" ++ c) := by
  induction fs with
  | nil => simp [appendFs, readFs]
  | cons qd rest ih =>
    obtain ⟨q, d⟩ := qd
    by_cases h : q = p
    · subst h; simp [appendFs, readFs]
    · simp [appendFs, readFs, h, ih]

/-- Zipping the flattened sources with the flattened contents is the
flattening of the per-section zips, when each section is parallel. -/
theorem zip_flatten_sections (secs : List SourceMap)
    (h : ∀ sec ∈ secs, sec.sources.length = sec.sourceContents.length) :
    ((secs.map SourceMap.sources).flatten).zip
      ((secs.map SourceMap.sourceContents).flatten) =
    (secs.map (fun sec => sec.sources.zip sec.sourceContents)).flatten := by
  induction secs with
  | nil => rfl
  | cons sec rest ih =>
    simp only [List.map_cons, List.flatten_cons]
    rw [List.zip_append (h sec (by simp))]
    rw [ih (fun s hs => h s (by simp [hs]))]

/-- `trim_start_matches` removes leading copies of the pattern until none
is left: the input is some number of copies followed by the result, and
the result no longer starts with the pattern. -/
theorem trimGo_spec (pat : List Char) (hp : pat ≠ []) :
    ∀ fuel s, s.length ≤ fuel →
      (∃ k, s = repList pat k ++ trimGo pat fuel s) ∧
      pat.isPrefixOf (trimGo pat fuel s) = false := by
  intro fuel
  induction fuel with
  | zero =>
    intro s hs
    have hsnil : s = [] := List.eq_nil_of_length_eq_zero (Nat.le_zero.mp hs)
    subst hsnil
    refine ⟨⟨0, rfl⟩, ?_⟩
    cases pat with
    | nil => exact absurd rfl hp
    | cons c cs => rfl
  | succ fuel ih =>
    intro s hs
    by_cases hpre : pat.isPrefixOf s = true
    · have hstep : trimGo pat (fuel + 1) s = trimGo pat fuel (s.drop pat.length) := by
        simp [trimGo, hp, hpre]
      obtain ⟨t, ht⟩ := List.isPrefixOf_iff_prefix.mp hpre
      have hdrop : s.drop pat.length = t := by
        rw [← ht]; exact List.drop_left pat t
      have hlen : (s.drop pat.length).length ≤ fuel := by
        rw [hdrop]
        have : pat.length + t.length = s.length := by
          rw [← ht, List.length_append]
        have hpl : 1 ≤ pat.length := by
          cases pat with
          | nil => exact absurd rfl hp
          | cons c cs => simp
        omega
      obtain ⟨⟨k, hk⟩, hfix⟩ := ih (s.drop pat.length) hlen
      refine ⟨⟨k + 1, ?_⟩, hstep ▸ hfix⟩
      rw [hstep, repList]
      calc s = pat ++ t := ht.symm
        _ = pat ++ (repList pat k ++ trimGo pat fuel (s.drop pat.length)) := by
            rw [← hdrop, ← hk]
        _ = pat ++ repList pat k ++ trimGo pat fuel (s.drop pat.length) := by
            rw [List.append_assoc]
    · have hstep : trimGo pat (fuel + 1) s = s := by
        simp [trimGo, hpre]
      rw [hstep]
      exact ⟨⟨0, rfl⟩, by simp only [Bool.not_eq_true] at hpre; exact hpre⟩

/-- Collapsing separator runs ignores an extra `/` inserted next to an
existing one. -/
theorem collapse_extra_slash (xs ys : List Char) :
    collapseSlashes (xs ++ '/' :: '/' :: ys) = collapseSlashes (xs ++ '/' :: ys) := by
  induction xs with
  | nil => simp [collapseSlashes]
  | cons c xs ih =>
    cases xs with
    | nil =>
      by_cases hc : c = '/'
      · subst hc; simp [collapseSlashes]
      · simp [collapseSlashes, hc]
    | cons d t =>
      have ih2 : collapseSlashes (d :: (t ++ '/' :: '/' :: ys)) =
          collapseSlashes (d :: (t ++ '/' :: ys)) := ih
      by_cases hcd : c = '/' ∧ d = '/'
      · simp only [List.cons_append, collapseSlashes, if_pos hcd]
        exact ih2
      · simp only [List.cons_append, collapseSlashes, if_neg hcd]
        exact congrArg (List.cons c) ih2

/-- A fetch loop that completed over `xs` continues over appended
scripts, carrying the accumulated bodies. -/
theorem fetchMapGo_append_ok (net : String → Except Unit HttpResponse) :
    ∀ (xs : List String) (acc l : List (String × String)),
      fetchMapGo net xs acc = .ok l →
      ∀ ys, fetchMapGo net (xs ++ ys) acc = fetchMapGo net ys l := by
  intro xs
  induction xs with
  | nil =>
    intro acc l h ys
    simp only [fetchMapGo] at h
    cases h
    rfl
  | cons s rest ih =>
    intro acc l h ys
    rw [List.cons_append]
    cases hn : net s with
    | error e =>
      simp only [fetchMapGo, hn] at h ⊢
      exact ih acc l h ys
    | ok r =>
      by_cases hs : isSuccess r.status = true
      · cases ht : r.text with
        | error e =>
          simp only [fetchMapGo, hn, hs, ht, if_true] at h
          exact absurd h (by simp)
        | ok body =>
          simp only [fetchMapGo, hn, hs, ht, if_true] at h ⊢
          exact ih _ l h ys
      · simp only [fetchMapGo, hn, hs, if_false] at h ⊢
        exact ih acc l h ys

/-- A script whose request fails with a transport error is skipped: the
loop behaves as if the script were absent. -/
theorem fetchMapGo_skip (net : String → Except Unit HttpResponse) (s : String)
    (hs : net s = .error ()) (ys : List String) :
    ∀ (xs : List String) (acc : List (String × String)),
      fetchMapGo net (xs ++ s :: ys) acc = fetchMapGo net (xs ++ ys) acc := by
  intro xs
  induction xs with
  | nil =>
    intro acc
    simp only [List.nil_append, fetchMapGo, hs]
  | cons x rest ih =>
    intro acc
    rw [List.cons_append, List.cons_append]
    cases hn : net x with
    | error e =>
      simp only [fetchMapGo, hn]
      exact ih acc
    | ok r =>
      by_cases hsu : isSuccess r.status = true
      · cases ht : r.text with
        | error e => simp only [fetchMapGo, hn, hsu, ht, if_true]
        | ok body =>
          simp only [fetchMapGo, hn, hsu, ht, if_true]
          exact ih _
      · simp only [fetchMapGo, hn, hsu, if_false]
        exact ih acc

/-! ### Claim theorems -/

/-- Claim C1 counterexample: a script element with the protocol-relative
src `//cdn.other/lib.js` does contribute an emission — the origin
concatenated with the rewritten value — whereas the claim states that
protocol-relative scripts contribute nothing. -/
theorem find_scripts_c1_counterexample :
    find_scripts "https://h" [⟨some "//cdn.other/lib.js"⟩] =
      ["https://h//cdn.other/lib.js.map"] ∧
    (find_scripts "https://h" [⟨some "//cdn.other/lib.js"⟩]).isEmpty = false := by
  decide

/-- Claim C1 (amended): for every script element whose src attribute
begins with `/` — including protocol-relative values beginning with
`//` — the discoverer emits exactly the origin concatenated with the src
value after replacing every occurrence of `.js` by `.js.map`; elements
whose src is absent or does not begin with `/` contribute nothing, and
emitted URLs appear in document order. -/
theorem find_scripts_spec (host : String) (tags : List ScriptTag) :
    find_scripts host tags = specDiscover host tags := by
  simpa using discover_foldl host tags []

/-- Claim C3: a regular decoded map is returned unchanged; an indexed
map is flattened into a single regular map whose zipped
(source, contents) entries are the sections' entries in order, so
inlined contents are preserved; any other decoded variant and any
failure of the underlying decoder yield `IncompatibleSourceMap`, the
Unsupported error. -/
theorem load_from_reader_spec :
    (∀ sm, load_from_reader (.ok (.Regular sm)) = .ok sm) ∧
    (∀ idx, load_from_reader (.ok (.Index idx)) =
      .ok ⟨(idx.sections.map SourceMap.sources).flatten,
           (idx.sections.map SourceMap.sourceContents).flatten⟩) ∧
    (∀ idx sm, load_from_reader (.ok (.Index idx)) = .ok sm →
      (∀ sec ∈ idx.sections, sec.sources.length = sec.sourceContents.length) →
      sm.sources.zip sm.sourceContents =
        (idx.sections.map (fun sec => sec.sources.zip sec.sourceContents)).flatten) ∧
    (∀ sm, load_from_reader (.ok (.Hermes sm)) = .error .IncompatibleSourceMap) ∧
    (∀ e, load_from_reader (.error e) = .error .IncompatibleSourceMap) := by
  refine ⟨fun sm => rfl, fun idx => rfl, ?_, fun sm => rfl, fun e => rfl⟩
  intro idx sm h hlen
  have hsm : sm = ⟨(idx.sections.map SourceMap.sources).flatten,
      (idx.sections.map SourceMap.sourceContents).flatten⟩ :=
    (Except.ok.inj h).symm
  subst hsm
  simpa using zip_flatten_sections idx.sections hlen

/-- Witness for C3: a concrete indexed map with two sections, one entry
with inlined contents and one without, flattens to the concatenation of
the sections' entries. -/
theorem load_from_reader_spec_witness :
    (SourceMap.mk ["a", "b"] [some "A", none]).sources.zip
        (SourceMap.mk ["a", "b"] [some "A", none]).sourceContents =
      ((SourceMapIndex.mk [⟨["a"], [some "A"]⟩, ⟨["b"], [none]⟩]).sections.map
        (fun sec => sec.sources.zip sec.sourceContents)).flatten :=
  load_from_reader_spec.2.2.1 ⟨[⟨["a"], [some "A"]⟩, ⟨["b"], [none]⟩]⟩
    ⟨["a", "b"], [some "A", none]⟩ (by decide) (by decide)

/-- Claim C4: for every decoded map, a write is produced for a
(source path, optional contents) entry exactly when the contents are
present; entries with absent contents are dropped and produce no
write. -/
theorem mapWrites_spec (sm : SourceMap) :
    mapWrites sm = (sm.sources.zip sm.sourceContents).filterMap
      (fun pc => pc.2.map (fun c => (pc.1, c))) ∧
    (∀ p c, (p, c) ∈ mapWrites sm ↔
      (p, some c) ∈ sm.sources.zip sm.sourceContents) := by
  constructor
  · unfold mapWrites
    exact filterMap_guard_eq _
  · intro p c
    unfold mapWrites
    rw [filterMap_guard_eq, List.mem_filterMap]
    constructor
    · rintro ⟨⟨q, oc⟩, hmem, heq⟩
      cases oc with
      | none => simp at heq
      | some d =>
        simp only [Option.map_some'] at heq
        cases heq
        exact hmem
    · intro h
      exact ⟨(p, some c), h, rfl⟩

/-- Claim C9: the pipeline is deterministic — with the transport, the
HTML parser and the decoder giving identical answers, two runs from a
clean output tree produce identical results. -/
theorem extract_map_deterministic (e1 e2 : Env) (origin : String)
    (hn : ∀ u, e1.net u = e2.net u)
    (hp : ∀ b, e1.parseHtml b = e2.parseHtml b)
    (hd : ∀ b, e1.decode b = e2.decode b) :
    extract_map e1 origin [] = extract_map e2 origin [] := by
  obtain ⟨n1, p1, d1⟩ := e1
  obtain ⟨n2, p2, d2⟩ := e2
  have h1 : n1 = n2 := funext hn
  have h2 : p1 = p2 := funext hp
  have h3 : d1 = d2 := funext hd
  subst h1; subst h2; subst h3
  rfl

/-- Witness for C9 at a concrete environment. -/
theorem extract_map_deterministic_witness :
    extract_map envW "https://example.test" [] =
      extract_map envW "https://example.test" [] :=
  extract_map_deterministic envW envW "https://example.test"
    (fun _ => rfl) (fun _ => rfl) (fun _ => rfl)

/-- Claim C10: with zero positional arguments the program panics on the
out-of-bounds index into the argument vector, and the outcome does not
depend on the environment — no network request or filesystem write
happens first. -/
theorem main_no_args_panics (env : Env) (a0 : String) :
    rustMain env [a0] = .panicked "index out of bounds" ∧
    rustMain env [] = .panicked "index out of bounds" ∧
    (∀ env2 : Env, rustMain env [a0] = rustMain env2 [a0]) :=
  ⟨rfl, rfl, fun _ => rfl⟩

/-- Claim C5: the target is opened with create-or-append semantics and
the contents are written verbatim; two logical paths that sanitize to
the same filesystem path leave that file holding the concatenation of
both contents in the order they were produced. -/
theorem write_append_spec (fs fs1 fs2 : Fs) (host p1 p2 c1 c2 t : String)
    (h1 : writeTarget host p1 = .ok t) (h2 : writeTarget host p2 = .ok t)
    (w1 : write_contents fs host p1 c1 = .ok fs1)
    (w2 : write_contents fs1 host p2 c2 = .ok fs2) :
    readFs fs2 t = some ((readFs fs t).getD "" ++ c1 ++ c2) := by
  unfold write_contents at w1 w2
  rw [h1] at w1
  rw [h2] at w2
  have e1 : appendFs fs t c1 = fs1 := RunResult.ok.inj w1
  have e2 : appendFs fs1 t c2 = fs2 := RunResult.ok.inj w2
  subst e1
  subst e2
  rw [appendFs_read, appendFs_read]
  simp [String.append_assoc]

/-- Witness for C5: `webpack:///a.js` and `./a.js` both sanitize to the
target `./out/example.test//a.js`; writing `A` then `B` from a clean
tree leaves the file holding `AB`. -/
theorem write_append_spec_witness :
    readFs [("./out/example.test//a.js", "AB")] "./out/example.test//a.js" =
      some ((readFs ([] : Fs) "./out/example.test//a.js").getD "" ++ "A" ++ "B") :=
  write_append_spec [] [("./out/example.test//a.js", "A")]
    [("./out/example.test//a.js", "AB")] "example.test" "webpack:///a.js" "./a.js"
    "A" "B" "./out/example.test//a.js" (by decide) (by decide) (by decide) (by decide)

/-- Claim C6 counterexample: on the entry whose sanitized path
`webpack:///` has no file name, the writer panics and the following
entry `a.js` is never written — the run aborts instead of continuing,
and no `BadPath` error value is produced. -/
theorem write_badpath_counterexample :
    writeAll "example.test" [("webpack:///", "X"), ("a.js", "Y")] [] =
      .panicked "failed to get file name" ∧
    (writeAll "example.test" [("webpack:///", "X"), ("a.js", "Y")] [] ==
      RunResult.ok [("./out/example.test//a.js", "Y")]) = false := by
  decide

/-- Claim C6 (amended): for every sanitized LogicalPath from which no
file name can be extracted, `write_contents` panics with
`failed to get file name`, and the panic aborts the write loop so the
next entry is not processed. -/
theorem write_badpath_spec (host path contents : String) (fs : Fs)
    (h : file_name (sanitizePath path).data = none) :
    write_contents fs host path contents = .panicked "failed to get file name" ∧
    (∀ rest, writeAll host ((path, contents) :: rest) fs =
      .panicked "failed to get file name") := by
  have hw : writeTarget host path = .panicked "failed to get file name" := by
    simp only [writeTarget, h]
  constructor
  · unfold write_contents
    rw [hw]
  · intro rest
    unfold writeAll write_contents
    rw [hw]

/-- Witness for C6 at the concrete bad path `webpack:///`. -/
theorem write_badpath_spec_witness :
    write_contents [] "example.test" "webpack:///" "X" =
      .panicked "failed to get file name" ∧
    writeAll "example.test" [("webpack:///", "X"), ("a.js", "Y")] [] =
      .panicked "failed to get file name" :=
  ⟨(write_badpath_spec "example.test" "webpack:///" "X" [] (by decide)).1,
   (write_badpath_spec "example.test" "webpack:///" "X" [] (by decide)).2
     [("a.js", "Y")]⟩

/-- Claim C7 counterexample: the sanitization removes every leading
copy of a prefix, not exactly one — `webpack:///webpack:///a.js`
becomes `a.js`, not `webpack:///a.js`, and `http://http://example.test`
becomes `example.test`, not `http://example.test`. -/
theorem trim_c7_counterexample :
    sanitizePath "webpack:///webpack:///a.js" = "a.js" ∧
    (sanitizePath "webpack:///webpack:///a.js" == "webpack:///a.js") = false ∧
    sanitizeHost "http://http://example.test" = "example.test" ∧
    (sanitizeHost "http://http://example.test" == "http://example.test") = false := by
  decide

/-- Claim C7 (amended): each sanitization stage repeatedly trims its
prefix until it no longer matches — all leading `http://` then all
leading `https://` from the HostKey, all leading `webpack:///` then all
leading `./` from the LogicalPath; each stage's result is the input
minus some number of copies of the prefix and does not start with that
prefix. -/
theorem sanitize_trim_spec (host path : String) :
    ((∃ i, host.data =
        repList "http://".data i ++ (trim_start_matches host "http://").data) ∧
      "http://".data.isPrefixOf (trim_start_matches host "http://").data = false) ∧
    ((∃ j, (trim_start_matches host "http://").data =
        repList "https://".data j ++ (sanitizeHost host).data) ∧
      "https://".data.isPrefixOf (sanitizeHost host).data = false) ∧
    ((∃ k, path.data =
        repList "webpack:///".data k ++
          (trim_start_matches path "webpack:///").data) ∧
      "webpack:///".data.isPrefixOf
        (trim_start_matches path "webpack:///").data = false) ∧
    ((∃ m, (trim_start_matches path "webpack:///").data =
        repList "./".data m ++ (sanitizePath path).data) ∧
      "./".data.isPrefixOf (sanitizePath path).data = false) :=
  ⟨trimGo_spec "http://".data (by decide) host.data.length host.data (Nat.le_refl _),
   trimGo_spec "https://".data (by decide) (trim_start_matches host "http://").data.length
     (trim_start_matches host "http://").data (Nat.le_refl _),
   trimGo_spec "webpack:///".data (by decide) path.data.length path.data (Nat.le_refl _),
   trimGo_spec "./".data (by decide) (trim_start_matches path "webpack:///").data.length
     (trim_start_matches path "webpack:///").data (Nat.le_refl _)⟩

/-- Claim C8 counterexample: the first map URL answers 2xx but its body
read fails; the whole fetch loop panics with `failed to get body`, so
the sibling map `https://h/b.js.map` is never collected — the claim
would have the loop skip the resource and return the sibling's body. -/
theorem fetch_c8_counterexample :
    fetch_map_files c8net ["https://h/a.js.map", "https://h/b.js.map"] =
      .panicked "failed to get body" ∧
    (fetch_map_files c8net ["https://h/a.js.map", "https://h/b.js.map"] ==
      RunResult.ok [("https://h/b.js.map", "MAPB")]) = false := by
  decide

/-- Claim C8 (amended): a transport error on the request itself is
non-fatal — the resource is skipped and the loop over the remaining
scripts is unaffected; but a transport error while reading the response
body of a 2xx response panics and aborts the whole fetch loop, so
sibling resources after it are not processed. -/
theorem fetch_map_files_spec (net : String → Except Unit HttpResponse)
    (xs ys : List String) (s : String) :
    (net s = .error () →
      fetch_map_files net (xs ++ s :: ys) = fetch_map_files net (xs ++ ys)) ∧
    (∀ r l, net s = .ok r → isSuccess r.status = true → r.text = .error () →
      fetch_map_files net xs = .ok l →
      fetch_map_files net (xs ++ s :: ys) = .panicked "failed to get body") := by
  constructor
  · intro h
    exact fetchMapGo_skip net s h ys xs []
  · intro r l hn hs ht hx
    unfold fetch_map_files at hx ⊢
    rw [fetchMapGo_append_ok net xs [] l hx (s :: ys)]
    simp only [fetchMapGo, hn, hs, ht, if_true]

/-- Witness for C8: with the concrete transport `c8net`, an erroring
request (`x`) is skipped without affecting the sibling, and a 2xx
response whose body read fails panics the loop. -/
theorem fetch_map_files_spec_witness :
    fetch_map_files c8net (["https://h/b.js.map"] ++ "x" :: []) =
      fetch_map_files c8net (["https://h/b.js.map"] ++ []) ∧
    fetch_map_files c8net (["https://h/b.js.map"] ++ "https://h/a.js.map" :: []) =
      .panicked "failed to get body" :=
  ⟨(fetch_map_files_spec c8net ["https://h/b.js.map"] [] "x").1 rfl,
   (fetch_map_files_spec c8net ["https://h/b.js.map"] [] "https://h/a.js.map").2
     ⟨200, .error ()⟩ [("https://h/b.js.map", "MAPB")] rfl rfl rfl (by decide)⟩

/-- Claim C2 counterexample: for the bare file name `a.js` the directory
component is empty and the writer opens `./out/example.test//a.js` — a
path with an empty middle segment — not the claimed
`./out/example.test/a.js`. -/
theorem writeTarget_c2_counterexample :
    writeTarget "example.test" "a.js" = .ok "./out/example.test//a.js" ∧
    ("./out/example.test//a.js" == "./out/example.test/a.js") = false := by
  decide

/-- Claim C2 (amended): whenever a file name and a parent directory can
be extracted from the sanitized path, the writer opens
`./out/<HostKey>/<dir>/<file>`; when the directory component is empty
the opened path is textually `./out/<HostKey>//<file>`, whose collapsed
separator runs give the same filesystem location as
`./out/<HostKey>/<file>`. -/
theorem writeTarget_spec (host path : String) (f dir : List Char)
    (hf : file_name (sanitizePath path).data = some f)
    (hd : parent (sanitizePath path).data = some dir) :
    writeTarget host path =
      .ok ("./out/" ++ sanitizeHost host ++ "/" ++ String.mk dir ++ "/" ++
        String.mk f) ∧
    (dir = [] → writeTarget host path =
      .ok ("./out/" ++ sanitizeHost host ++ "//" ++ String.mk f)) ∧
    (dir = [] →
      collapseSlashes ("./out/" ++ sanitizeHost host ++ "/" ++ String.mk dir ++
          "/" ++ String.mk f).data =
        collapseSlashes ("./out/" ++ sanitizeHost host ++ "/" ++
          String.mk f).data) := by
  have hslash : "/".data = ['/'] := rfl
  have hslash2 : "//".data = ['/', '/'] := rfl
  have hnil : (String.mk ([] : List Char)).data = [] := rfl
  have ht : writeTarget host path =
      .ok ("./out/" ++ sanitizeHost host ++ "/" ++ String.mk dir ++ "/" ++
        String.mk f) := by
    simp only [writeTarget, hf, hd]
  refine ⟨ht, fun hdir => ?_, fun hdir => ?_⟩
  · subst hdir
    rw [ht]
    refine congrArg RunResult.ok (strEq_of_data _ _ ?_)
    simp only [strData_append, hslash, hslash2, hnil, List.append_nil,
      List.nil_append, List.append_assoc, List.singleton_append, List.cons_append]
  · subst hdir
    simp only [strData_append, hslash, hnil, List.append_nil,
      List.nil_append, List.append_assoc, List.singleton_append]
    simpa [List.append_assoc] using
      collapse_extra_slash ("./out/".data ++ (sanitizeHost host).data)
        ((String.mk f).data)

/-- Witness for C2: `webpack:///a.js` sanitizes to the bare file `a.js`
with an empty directory component, and the opened path is
`./out/example.test//a.js`. -/
theorem writeTarget_spec_witness :
    writeTarget "https://example.test" "webpack:///a.js" =
      .ok ("./out/" ++ sanitizeHost "https://example.test" ++ "//" ++
        String.mk "a.js".data) :=
  ((writeTarget_spec "https://example.test" "webpack:///a.js" "a.js".data []
    (by decide) (by decide)).2).1 rfl
